import Mathlib

/-!
Verification development for the `cargo-apple` CLI driver
(`src/bin/cargo-apple.rs`): a shallow embedding of the command dispatch,
the staged build pipeline, and the `xcode-script` environment synthesis,
together with theorems checking the specification's claims about them.
-/

namespace CargoApple

/-- Paths are modelled as strings; `PathBuf::join` is literal concatenation
with a separator (the source never normalizes paths, and its error reports
display the unnormalized path). -/
abbrev Path := String

def pathJoin (a b : Path) : Path := a ++ "/" ++ b

/-- File-system view: which paths are existing directories
(`std::path::Path::is_dir`). -/
structure FS where
  isDir : Path → Bool

/-- `opts::Profile`, the debug/release selector. -/
inductive Profile where
  | Debug
  | Release
deriving DecidableEq, Repr

/-- `fn profile_from_configuration` (src/bin/cargo-apple.rs lines 42-48). -/
def profile_from_configuration (configuration : String) : Profile :=
  if configuration = "release" then Profile.Release else Profile.Debug

/-- `fn macos_from_platform` (src/bin/cargo-apple.rs lines 38-40). -/
def macos_from_platform (platform : String) : Bool :=
  platform = "macOS"

/-- Modelled from the spec: the Target Registry's catalogue (`Target::all`,
`Target::macos`, `Target::for_arch`, `Target::DEFAULT_KEY` live in the
library crate, not under src/). Per the spec the registry holds the named
mobile architectures plus one special host/macOS target; the two mobile
architectures are fixed by the source's architecture table
("arm64" and "x86_64"). -/
inductive Target where
  | ios_arm64
  | ios_x86_64
  | macos
deriving DecidableEq, Repr

/-- Modelled from the spec: `Target::for_arch`, the registry's
architecture-keyed lookup (`for_architecture_name(name) -> Target | None`),
keyed by raw architecture name. -/
def Target.for_arch (arch : String) : Option Target :=
  if arch = "arm64" then some Target.ios_arm64
  else if arch = "x86_64" then some Target.ios_x86_64
  else none

/-- Modelled from the spec: `Target::DEFAULT_KEY`, the registry's
default-selection key (the CLI key of the device architecture). -/
def defaultKey : String := "aarch64"

/-- Modelled from the spec: the registry's CLI-key lookup
(`lookup(key) -> Target | TargetInvalid`); fails closed for unknown keys. -/
def registryLookup (key : String) : Option Target :=
  if key = "aarch64" then some Target.ios_arm64
  else if key = "x86_64" then some Target.ios_x86_64
  else none

/-- Modelled from the spec: the registry's canonical all-targets order
(`all() -> ordered sequence`). -/
def allTargets : List Target := [Target.ios_arm64, Target.ios_x86_64]

/-- `enum Error` of src/bin/cargo-apple.rs (the variants the claims touch;
wrapped collaborator errors are abstracted as strings, and the payloads of
`EnvInitFailed` and `NoHomeDir` are dropped). -/
inductive Error where
  | EnvInitFailed (err : String)
  | DevicePromptFailed (err : String)
  | TargetInvalid (name : String)
  | ConfigFailed (err : String)
  | MetadataFailed (err : String)
  | ProjectDirAbsent (project_dir : Path)
  | OpenFailed (err : String)
  | CheckFailed (err : String)
  | BuildFailed (err : String)
  | ArchiveFailed (err : String)
  | RunFailed (err : String)
  | NoHomeDir
  | SdkRootInvalid (sdk_root : Path)
  | IncludeDirInvalid (include_dir : Path)
  | MacosSdkRootInvalid (macos_sdk_root : Path)
  | ArchInvalid (arch : String)
  | CompileLibFailed (err : String)
deriving DecidableEq, Repr

/-- The `HashMap<&str, &OsStr>` environment overlay, modelled as an
association list where insertion prepends and lookup takes the most recent
binding — observationally the hash map's insert-replaces semantics. -/
abbrev EnvMap := List (String × String)

def envInsert (m : EnvMap) (k v : String) : EnvMap := (k, v) :: m

def envGet (m : EnvMap) (k : String) : Option String := List.lookup k m

/-- The `host_env` construction of `Command::XcodeScript` (lines 379-399):
host flags used by build scripts, inserted in source order. -/
def hostEnv (include_dir : Path) (macos_isysroot : String) : EnvMap :=
  envInsert (envInsert (envInsert (envInsert (envInsert []
    "MAC_FLAGS" macos_isysroot)
    "CFLAGS_x86_64_apple_darwin" macos_isysroot)
    "CXXFLAGS_x86_64_apple_darwin" macos_isysroot)
    "OBJC_INCLUDE_PATH_x86_64_apple_darwin" include_dir)
    "RUST_BACKTRACE" "1"

/-- The architecture → triple table of `Command::XcodeScript`
(lines 407-411). -/
def triple_for_arch (arch : String) : Option String :=
  if arch = "arm64" then some "aarch64_apple_ios"
  else if arch = "x86_64" then some "x86_64_apple_ios"
  else none

/-- The per-architecture `target_env` construction (lines 412-418). Note:
the source computes both `cflags` and `cxxflags` as
`format!("CFLAGS_{}", triple)` — line 413 reuses the `CFLAGS_` prefix for
the variable named `cxxflags` — and this embedding reproduces that
faithfully. -/
def targetEnv (host : EnvMap) (triple : String) (isysroot include_dir : String) : EnvMap :=
  let cflags := "CFLAGS_" ++ triple
  let cxxflags := "CFLAGS_" ++ triple
  let objc_include_path := "OBJC_INCLUDE_PATH_" ++ triple
  envInsert (envInsert (envInsert host cflags isysroot) cxxflags isysroot)
    objc_include_path include_dir

/-- The `for arch in arches` loop of `Command::XcodeScript`
(lines 405-438), parametric in the registry lookup used when not building
for the host platform (instantiated with `Target.for_arch`). Returns the
trace of attempted `compile_lib` calls (target and overlay, in order)
together with the final result; `compile t e = none` means that compile
succeeded, `some err` a `CompileLibError`. -/
def runArchesWith (lookup : String → Option Target) (macosFlag : Bool)
    (host : EnvMap) (isysroot include_dir : String)
    (compile : Target → EnvMap → Option String) :
    List String → List (Target × EnvMap) × Except Error Unit
  | [] => ([], Except.ok ())
  | arch :: rest =>
    match triple_for_arch arch with
    | none => ([], Except.error (Error.ArchInvalid arch))
    | some triple =>
      let tenv := targetEnv host triple isysroot include_dir
      match (if macosFlag then some Target.macos else lookup arch) with
      | none => ([], Except.error (Error.ArchInvalid arch))
      | some t =>
        match compile t tenv with
        | some e => ([(t, tenv)], Except.error (Error.CompileLibFailed e))
        | none =>
          let r := runArchesWith lookup macosFlag host isysroot include_dir compile rest
          ((t, tenv) :: r.1, r.2)

/-- The relative path from the SDK root to the sibling macOS SDK root
(line 384). -/
def macosSdkPath (sdk_root : Path) : Path :=
  pathJoin sdk_root "../../../../MacOSX.platform/Developer/SDKs/MacOSX.sdk"

/-- `Command::XcodeScript` body after config/metadata load (lines 361-440):
the home-directory lookup backing the PATH prepend (`home = none` models
`util::home_dir()` failing), the three directory validations in source
order, host overlay construction, then the per-architecture loop. -/
def xcodeScript (home : Option Path) (fs : FS) (macosFlag : Bool)
    (sdk_root : Path) (arches : List String)
    (compile : Target → EnvMap → Option String) :
    List (Target × EnvMap) × Except Error Unit :=
  match home with
  | none => ([], Except.error Error.NoHomeDir)
  | some _ =>
    if !fs.isDir sdk_root then ([], Except.error (Error.SdkRootInvalid sdk_root))
    else
      let include_dir := pathJoin sdk_root "usr/include"
      if !fs.isDir include_dir then
        ([], Except.error (Error.IncludeDirInvalid include_dir))
      else
        let macos_sdk_root := macosSdkPath sdk_root
        if !fs.isDir macos_sdk_root then
          ([], Except.error (Error.MacosSdkRootInvalid macos_sdk_root))
        else
          let macos_isysroot := "-isysroot " ++ macos_sdk_root
          let host := hostEnv include_dir macos_isysroot
          let isysroot := "-isysroot " ++ sdk_root
          runArchesWith Target.for_arch macosFlag host isysroot include_dir compile arches

/-- First-occurrence deduplication underlying the TargetSet invariant
("ordered, deduplicated sequence ... duplicates removed but
first-occurrence order preserved"). -/
def dedupFirst : List Target → List Target
  | [] => []
  | t :: rest => t :: (dedupFirst rest).filter (fun u => u ≠ t)

/-- Left-to-right registry resolution of an explicit key list: the first
invalid key fails the whole resolution (no partial success). -/
def resolveKeys : List String → Except Error (List Target)
  | [] => Except.ok []
  | k :: rest =>
    match registryLookup k with
    | none => Except.error (Error.TargetInvalid k)
    | some t =>
      match resolveKeys rest with
      | Except.error e => Except.error e
      | Except.ok ts => Except.ok (t :: ts)

/-- Modelled from the spec: target selection
(`call_for_targets_with_fallback`, which lives in the library crate, not
under src/). Spec §4.3: an explicit key list that is neither empty nor
solely the default key is resolved through the registry, failing closed on
any invalid key, and deduplicated preserving first occurrence (§3
TargetSet, §8); a list that is empty or consists solely of the default key
takes the fallback — the detected device's target when available, else the
registry's canonical all-targets order. Lists containing the default key
alongside other keys are resolved like other explicit lists (§4.3 leaves
them unspecified; §8 covers them). `device = none` models device detection
being unavailable or failing. -/
def select (keys : List String) (device : Option Target) : Except Error (List Target) :=
  if keys.isEmpty || keys.all (fun k => k == defaultKey) then
    match device with
    | some t => Except.ok [t]
    | none => Except.ok allTargets
  else
    match resolveKeys keys with
    | Except.error e => Except.error e
    | Except.ok ts => Except.ok (dedupFirst ts)

/-- Abstract outcomes of the external collaborators and of the per-target
stage operations for one invocation: `none` means success, `some err` the
wrapped collaborator error. -/
structure World where
  configErr : Option String
  metadataErr : Option String
  projectDirExists : Bool
  projectDir : Path
  checkRes : Target → Option String
  buildRes : Target → Profile → Option String
  archiveRes : Target → Profile → Option String
  devicePrompt : Except String Target
  runRes : Target → Profile → Option String
  openRes : Option String

/-- Observable stage work performed by a command: one event per stage
invocation on a target. -/
inductive Event where
  | checked (t : Target)
  | built (t : Target) (p : Profile)
  | archived (t : Target) (p : Profile)
  | ran (t : Target) (p : Profile)
  | opened
deriving DecidableEq, Repr

/-- `fn ensure_init` (lines 237-245). -/
def ensure_init (projectDirExists : Bool) (projectDir : Path) : Except Error Unit :=
  if !projectDirExists then Except.error (Error.ProjectDirAbsent projectDir)
  else Except.ok ()

/-- `fn detect_target_ok` (lines 211-213): the device prompt's result
viewed as an optional target. -/
def detect_target_ok (devicePrompt : Except String Target) : Option Target :=
  devicePrompt.toOption

/-- The per-target closure of `Command::Check` (lines 295-299), iterated
strictly sequentially and fail-fast over the resolved targets (spec §4.4;
the iteration itself is done by the library's
`call_for_targets_with_fallback`, outside src/). The trace records each
`target.check` invocation. -/
def checkLoop (res : Target → Option String) :
    List Target → List Event × Except Error Unit
  | [] => ([], Except.ok ())
  | t :: rest =>
    match res t with
    | some e => ([Event.checked t], Except.error (Error.CheckFailed e))
    | none =>
      let r := checkLoop res rest
      (Event.checked t :: r.1, r.2)

/-- The per-target closure of `Command::Build` (lines 313-317), iterated
fail-fast as in `checkLoop`. -/
def buildLoop (bres : Target → Profile → Option String) (p : Profile) :
    List Target → List Event × Except Error Unit
  | [] => ([], Except.ok ())
  | t :: rest =>
    match bres t p with
    | some e => ([Event.built t p], Except.error (Error.BuildFailed e))
    | none =>
      let r := buildLoop bres p rest
      (Event.built t p :: r.1, r.2)

/-- The per-target closure of `Command::Archive` (lines 330-337): build,
then archive, iterated fail-fast as in `checkLoop`. The trace records each
stage invocation in order. -/
def archiveLoop (bres ares : Target → Profile → Option String) (p : Profile) :
    List Target → List Event × Except Error Unit
  | [] => ([], Except.ok ())
  | t :: rest =>
    match bres t p with
    | some e => ([Event.built t p], Except.error (Error.BuildFailed e))
    | none =>
      match ares t p with
      | some e =>
        ([Event.built t p, Event.archived t p], Except.error (Error.ArchiveFailed e))
      | none =>
        let r := archiveLoop bres ares p rest
        (Event.built t p :: Event.archived t p :: r.1, r.2)

/-- `Command::Check` (lines 289-303): config, then metadata, then target
selection, then the per-target check loop — with no `ensure_init` call. -/
def checkCommand (w : World) (keys : List String) : List Event × Except Error Unit :=
  match w.configErr with
  | some e => ([], Except.error (Error.ConfigFailed e))
  | none =>
    match w.metadataErr with
    | some e => ([], Except.error (Error.MetadataFailed e))
    | none =>
      match select keys (detect_target_ok w.devicePrompt) with
      | Except.error e => ([], Except.error e)
      | Except.ok ts => checkLoop w.checkRes ts

/-- `Command::Build` (lines 304-320): config, then `ensure_init`, then
target selection, then the per-target build loop. -/
def buildCommand (w : World) (keys : List String) (p : Profile) :
    List Event × Except Error Unit :=
  match w.configErr with
  | some e => ([], Except.error (Error.ConfigFailed e))
  | none =>
    match ensure_init w.projectDirExists w.projectDir with
    | Except.error e => ([], Except.error e)
    | Except.ok _ =>
      match select keys (detect_target_ok w.devicePrompt) with
      | Except.error e => ([], Except.error e)
      | Except.ok ts => buildLoop w.buildRes p ts

/-- `Command::Archive` (lines 321-340): config, then `ensure_init`, then
target selection, then the per-target build-then-archive loop. -/
def archiveCommand (w : World) (keys : List String) (p : Profile) :
    List Event × Except Error Unit :=
  match w.configErr with
  | some e => ([], Except.error (Error.ConfigFailed e))
  | none =>
    match ensure_init w.projectDirExists w.projectDir with
    | Except.error e => ([], Except.error e)
    | Except.ok _ =>
      match select keys (detect_target_ok w.devicePrompt) with
      | Except.error e => ([], Except.error e)
      | Except.ok ts => archiveLoop w.buildRes w.archiveRes p ts

/-- `Command::Run` (lines 341-349): config, then `ensure_init`, then the
device prompt, then deploy-and-run on the prompted device. -/
def runCommand (w : World) (p : Profile) : List Event × Except Error Unit :=
  match w.configErr with
  | some e => ([], Except.error (Error.ConfigFailed e))
  | none =>
    match ensure_init w.projectDirExists w.projectDir with
    | Except.error e => ([], Except.error e)
    | Except.ok _ =>
      match w.devicePrompt with
      | Except.error e => ([], Except.error (Error.DevicePromptFailed e))
      | Except.ok t =>
        match w.runRes t p with
        | some e => ([Event.ran t p], Except.error (Error.RunFailed e))
        | none => ([Event.ran t p], Except.ok ())

/-- `Command::Open` (lines 285-288): config, then `ensure_init`, then
opening the project in Xcode. -/
def openCommand (w : World) : List Event × Except Error Unit :=
  match w.configErr with
  | some e => ([], Except.error (Error.ConfigFailed e))
  | none =>
    match ensure_init w.projectDirExists w.projectDir with
    | Except.error e => ([], Except.error e)
    | Except.ok _ =>
      match w.openRes with
      | some e => ([], Except.error (Error.OpenFailed e))
      | none => ([Event.opened], Except.ok ())

/-- Concrete file system: the SDK root and its usr/include exist, the
sibling macOS SDK root does not. -/
def fsNoMac : FS :=
  FS.mk (fun p => p == "/sdk" || p == "/sdk/usr/include")

/-- Concrete file system: the SDK root, its usr/include, and the sibling
macOS SDK root all exist. -/
def fsFull : FS :=
  FS.mk (fun p => p == "/sdk" || p == "/sdk/usr/include" || p == macosSdkPath "/sdk")

/-- A compile collaborator that always succeeds. -/
def compileOk : Target → EnvMap → Option String := fun _ _ => none

/-- Concrete world: everything healthy except that the Xcode project
directory has not been generated yet. -/
def wNoProj : World where
  configErr := none
  metadataErr := none
  projectDirExists := false
  projectDir := "/app/gen/apple"
  checkRes := fun _ => none
  buildRes := fun _ _ => none
  archiveRes := fun _ _ => none
  devicePrompt := Except.error "no devices detected"
  runRes := fun _ _ => none
  openRes := none

/-- Concrete world: initialized project whose static-library build fails. -/
def wBuildFail : World where
  configErr := none
  metadataErr := none
  projectDirExists := true
  projectDir := "/app/gen/apple"
  checkRes := fun _ => none
  buildRes := fun _ _ => some "cargo build exited with status 101"
  archiveRes := fun _ _ => none
  devicePrompt := Except.error "no devices detected"
  runRes := fun _ _ => none
  openRes := none

/-- The overlay the xcode-script run on `fsFull` synthesizes for "arm64". -/
def arm64Overlay : EnvMap :=
  targetEnv (hostEnv (pathJoin "/sdk" "usr/include") ("-isysroot " ++ macosSdkPath "/sdk"))
    "aarch64_apple_ios" ("-isysroot " ++ "/sdk") (pathJoin "/sdk" "usr/include")

/-- C7: the build-configuration-name flag maps to the Release profile
exactly when the configuration string equals "release" under a
case-sensitive comparison, and to Debug for every other string (including
other capitalizations). -/
theorem c7_profile_configuration :
    (∀ s : String, profile_from_configuration s = Profile.Release ↔ s = "release") ∧
    (∀ s : String, s ≠ "release" → profile_from_configuration s = Profile.Debug) := by
  constructor
  · intro s
    constructor
    · intro h
      by_contra hne
      simp [profile_from_configuration, hne] at h
    · intro h
      simp [profile_from_configuration, h]
  · intro s h
    simp [profile_from_configuration, h]

/-- C7 witness: "release" maps to Release; the differently capitalized
"Release" maps to Debug. -/
theorem c7_witness :
    profile_from_configuration "release" = Profile.Release ∧
    ("Release" ≠ "release" ∧ profile_from_configuration "Release" = Profile.Debug) :=
  ⟨(c7_profile_configuration.1 "release").mpr rfl, by decide,
    c7_profile_configuration.2 "Release" (by decide)⟩

/-- C3: the xcode-script architecture table is total exactly on the two
supported names: "arm64" maps to the aarch64 apple_ios triple, "x86_64" to
the x86_64 apple_ios (simulator) triple, and the per-architecture loop
fails with `ArchInvalid` naming any other architecture string. -/
theorem c3_arch_table :
    triple_for_arch "arm64" = some "aarch64_apple_ios" ∧
    triple_for_arch "x86_64" = some "x86_64_apple_ios" ∧
    (∀ a, a ≠ "arm64" → a ≠ "x86_64" →
      triple_for_arch a = none ∧
      ∀ lookup m host sys inc compile rest,
        runArchesWith lookup m host sys inc compile (a :: rest) =
          ([], Except.error (Error.ArchInvalid a))) := by
  refine ⟨rfl, rfl, ?_⟩
  intro a h1 h2
  have ht : triple_for_arch a = none := by
    simp [triple_for_arch, h1, h2]
  refine ⟨ht, ?_⟩
  intro lookup m host sys inc compile rest
  simp [runArchesWith, ht]

/-- C3 witness: the unsupported name "armv7" fails the loop with
`ArchInvalid "armv7"`. -/
theorem c3_witness :
    triple_for_arch "armv7" = none ∧
    runArchesWith Target.for_arch false [] "s" "i" compileOk ["armv7"] =
      ([], Except.error (Error.ArchInvalid "armv7")) :=
  ⟨(c3_arch_table.2.2 "armv7" (by decide) (by decide)).1,
    (c3_arch_table.2.2 "armv7" (by decide) (by decide)).2
      Target.for_arch false [] "s" "i" compileOk []⟩

/-- C1 counterexample: with the SDK root and usr/include valid but the
sibling macOS SDK root missing, the command fails with
`MacosSdkRootInvalid` even when building for the host platform
(platform flag "macOS"), contradicting the claim that the third check is
not a failure condition in that case. -/
theorem c1_counterexample :
    macos_from_platform "macOS" = true ∧
    xcodeScript (some "/Users/u") fsNoMac true "/sdk" ["arm64"] compileOk =
      ([], Except.error (Error.MacosSdkRootInvalid (macosSdkPath "/sdk"))) :=
  ⟨rfl, rfl⟩

/-- C1 (amended): xcode-script validation runs in order with a distinct
error per failure — invalid SDK root first, then invalid usr/include
directory, then invalid sibling macOS SDK root — but the third check
applies in every case, including when building for the host platform. -/
theorem c1_amended (h : Path) (fs : FS) (m : Bool) (sdk : Path)
    (arches : List String) (compile : Target → EnvMap → Option String) :
    (fs.isDir sdk = false →
      xcodeScript (some h) fs m sdk arches compile =
        ([], Except.error (Error.SdkRootInvalid sdk))) ∧
    (fs.isDir sdk = true → fs.isDir (pathJoin sdk "usr/include") = false →
      xcodeScript (some h) fs m sdk arches compile =
        ([], Except.error (Error.IncludeDirInvalid (pathJoin sdk "usr/include")))) ∧
    (fs.isDir sdk = true → fs.isDir (pathJoin sdk "usr/include") = true →
      fs.isDir (macosSdkPath sdk) = false →
      xcodeScript (some h) fs m sdk arches compile =
        ([], Except.error (Error.MacosSdkRootInvalid (macosSdkPath sdk)))) := by
  refine ⟨?_, ?_, ?_⟩
  · intro h1
    simp [xcodeScript, h1]
  · intro h1 h2
    simp [xcodeScript, h1, h2]
  · intro h1 h2 h3
    simp [xcodeScript, h1, h2, h3]

/-- C1 witness: the three validation failures observed on concrete file
systems, in order. -/
theorem c1_witness :
    (fsNoMac.isDir "/nope" = false ∧
      xcodeScript (some "/Users/u") fsNoMac false "/nope" ["arm64"] compileOk =
        ([], Except.error (Error.SdkRootInvalid "/nope"))) ∧
    (fsNoMac.isDir "/sdk" = true ∧ fsNoMac.isDir (macosSdkPath "/sdk") = false ∧
      xcodeScript (some "/Users/u") fsNoMac false "/sdk" ["arm64"] compileOk =
        ([], Except.error (Error.MacosSdkRootInvalid (macosSdkPath "/sdk")))) :=
  ⟨⟨rfl, (c1_amended "/Users/u" fsNoMac false "/nope" ["arm64"] compileOk).1 rfl⟩,
    ⟨rfl, rfl,
      (c1_amended "/Users/u" fsNoMac false "/sdk" ["arm64"] compileOk).2.2 rfl rfl rfl⟩⟩

/-- C2: evaluating the per-architecture overlay construction at
architecture "arm64": the overlay binds `CFLAGS_aarch64_apple_ios` but has
no `CXXFLAGS_aarch64_apple_ios` binding — the variable named `cxxflags` on
source line 413 is built with the `CFLAGS_` prefix — even though the host
overlay it clones carries the analogous host pair
`CFLAGS_x86_64_apple_darwin` / `CXXFLAGS_x86_64_apple_darwin`. -/
theorem c2_code_evaluation :
    envGet (targetEnv (hostEnv "INC" "MI") "aarch64_apple_ios" "SYS" "INC")
        "CFLAGS_aarch64_apple_ios" = some "SYS" ∧
    envGet (targetEnv (hostEnv "INC" "MI") "aarch64_apple_ios" "SYS" "INC")
        "CXXFLAGS_aarch64_apple_ios" = none ∧
    envGet (hostEnv "INC" "MI") "CXXFLAGS_x86_64_apple_darwin" = some "MI" :=
  ⟨rfl, rfl, rfl⟩

/-- C4 counterexample: with a fully valid SDK layout and architectures
["arm64", "armv7"], the command does fail with `ArchInvalid "armv7"`, but
compilation was already attempted for the other requested architecture
("arm64" — the trace has one compile call), contradicting the claim that
no other requested architecture is attempted. -/
theorem c4_counterexample :
    (xcodeScript (some "/Users/u") fsFull false "/sdk" ["arm64", "armv7"] compileOk).2 =
      Except.error (Error.ArchInvalid "armv7") ∧
    (xcodeScript (some "/Users/u") fsFull false "/sdk" ["arm64", "armv7"] compileOk).1.length
      = 1 :=
  ⟨rfl, rfl⟩

/-- An architecture with a triple also has a registry target. -/
theorem for_arch_isSome_of_triple (a : String) (tr : String)
    (h : triple_for_arch a = some tr) : ∃ t, Target.for_arch a = some t := by
  by_cases h1 : a = "arm64"
  · exact ⟨Target.ios_arm64, by simp [Target.for_arch, h1]⟩
  · by_cases h2 : a = "x86_64"
    · exact ⟨Target.ios_x86_64, by simp [Target.for_arch, h1, h2]⟩
    · simp [triple_for_arch, h1, h2] at h

/-- Running the loop on a list of valid architectures followed by an
invalid one: every valid architecture before the invalid one is compiled
(one trace entry each, given the compiles succeed), then the loop stops
with `ArchInvalid` at the invalid name and never reaches what follows. -/
theorem runArchesWith_stops_at_invalid (lookup : String → Option Target) (m : Bool)
    (host : EnvMap) (sys inc : String) (compile : Target → EnvMap → Option String)
    (hcomp : ∀ t e, compile t e = none)
    (pre : List String) (bad : String) (post : List String)
    (hpre : ∀ a ∈ pre, (∃ tr, triple_for_arch a = some tr) ∧ ∃ t, lookup a = some t)
    (hbad : triple_for_arch bad = none) :
    (runArchesWith lookup m host sys inc compile (pre ++ bad :: post)).2 =
      Except.error (Error.ArchInvalid bad) ∧
    (runArchesWith lookup m host sys inc compile (pre ++ bad :: post)).1.length =
      pre.length := by
  induction pre with
  | nil =>
    simp [runArchesWith, hbad]
  | cons a rest ih =>
    obtain ⟨⟨tr, htr⟩, t0, ht0⟩ := hpre a (by simp)
    have hrest := ih (fun x hx => hpre x (by simp [hx]))
    cases m with
    | true =>
      simp [runArchesWith, htr, hcomp, hrest.1, hrest.2]
    | false =>
      simp [runArchesWith, htr, ht0, hcomp, hrest.1, hrest.2]

/-- C4 (amended): when the SDK layout is valid and the compiles of the
valid names preceding the first unsupported name succeed, the command
fails with the architecture-invalid error naming that first unsupported
name; each valid name before it is compiled (one compile call each), and
no synthesis or compilation is attempted for the unsupported name or for
any name after it. -/
theorem c4_amended (h : Path) (fs : FS) (m : Bool) (sdk : Path)
    (pre post : List String) (bad : String)
    (compile : Target → EnvMap → Option String)
    (hsdk : fs.isDir sdk = true)
    (hinc : fs.isDir (pathJoin sdk "usr/include") = true)
    (hmac : fs.isDir (macosSdkPath sdk) = true)
    (hpre : ∀ a ∈ pre, ∃ tr, triple_for_arch a = some tr)
    (hcomp : ∀ t e, compile t e = none)
    (hbad : triple_for_arch bad = none) :
    (xcodeScript (some h) fs m sdk (pre ++ bad :: post) compile).2 =
      Except.error (Error.ArchInvalid bad) ∧
    (xcodeScript (some h) fs m sdk (pre ++ bad :: post) compile).1.length =
      pre.length := by
  have hx : xcodeScript (some h) fs m sdk (pre ++ bad :: post) compile =
      runArchesWith Target.for_arch m
        (hostEnv (pathJoin sdk "usr/include") ("-isysroot " ++ macosSdkPath sdk))
        ("-isysroot " ++ sdk) (pathJoin sdk "usr/include") compile
        (pre ++ bad :: post) := by
    simp [xcodeScript, hsdk, hinc, hmac]
  rw [hx]
  refine runArchesWith_stops_at_invalid Target.for_arch m _ _ _ compile hcomp pre bad post
    (fun a ha => ⟨hpre a ha, ?_⟩) hbad
  obtain ⟨tr, htr⟩ := hpre a ha
  exact for_arch_isSome_of_triple a tr htr

/-- C4 witness: on a valid SDK with architectures
["arm64", "armv7", "x86_64"], the run compiles "arm64" (one trace entry),
fails with `ArchInvalid "armv7"`, and never touches "x86_64". -/
theorem c4_witness :
    (xcodeScript (some "/Users/u") fsFull false "/sdk" ["arm64", "armv7", "x86_64"]
        compileOk).2 = Except.error (Error.ArchInvalid "armv7") ∧
    (xcodeScript (some "/Users/u") fsFull false "/sdk" ["arm64", "armv7", "x86_64"]
        compileOk).1.length = 1 :=
  c4_amended "/Users/u" fsFull false "/sdk" ["arm64"] ["x86_64"] "armv7" compileOk
    rfl rfl rfl
    (by
      intro a ha
      simp at ha
      subst ha
      exact ⟨"aarch64_apple_ios", rfl⟩)
    (fun _ _ => rfl) rfl

/-- The only triples the architecture table produces. -/
theorem triple_values (arch triple : String) (h : triple_for_arch arch = some triple) :
    triple = "aarch64_apple_ios" ∨ triple = "x86_64_apple_ios" := by
  by_cases h1 : arch = "arm64"
  · simp [triple_for_arch, h1] at h
    exact Or.inl h.symm
  · by_cases h2 : arch = "x86_64"
    · simp [triple_for_arch, h1, h2] at h
      exact Or.inr h.symm
    · simp [triple_for_arch, h1, h2] at h

/-- Every overlay in the loop's compile trace is the target overlay of one
of the table's triples over the given host overlay. -/
theorem runArchesWith_trace_env (lookup : String → Option Target) (m : Bool)
    (host : EnvMap) (sys inc : String) (compile : Target → EnvMap → Option String)
    (arches : List String) (t : Target) (e : EnvMap)
    (hmem : (t, e) ∈ (runArchesWith lookup m host sys inc compile arches).1) :
    ∃ arch triple, triple_for_arch arch = some triple ∧
      e = targetEnv host triple sys inc := by
  induction arches with
  | nil => simp [runArchesWith] at hmem
  | cons a rest ih =>
    cases htr : triple_for_arch a with
    | none => simp [runArchesWith, htr] at hmem
    | some tr =>
      cases ht0 : (if m then some Target.macos else lookup a) with
      | none => simp [runArchesWith, htr, ht0] at hmem
      | some t0 =>
        cases hc : compile t0 (targetEnv host tr sys inc) with
        | some err =>
          simp [runArchesWith, htr, ht0, hc] at hmem
          exact ⟨a, tr, htr, hmem.2⟩
        | none =>
          simp [runArchesWith, htr, ht0, hc] at hmem
          rcases hmem with ⟨h1, h2⟩ | h
          · exact ⟨a, tr, htr, h2⟩
          · exact ih h

/-- The five host-overlay entries survive in the target overlay for either
of the table's triples: no target-keyed variable collides with a host
key. -/
theorem targetEnv_host_keys (inc mi sys triple : String)
    (htr : triple = "aarch64_apple_ios" ∨ triple = "x86_64_apple_ios") :
    envGet (targetEnv (hostEnv inc mi) triple sys inc) "MAC_FLAGS" = some mi ∧
    envGet (targetEnv (hostEnv inc mi) triple sys inc)
      "CFLAGS_x86_64_apple_darwin" = some mi ∧
    envGet (targetEnv (hostEnv inc mi) triple sys inc)
      "CXXFLAGS_x86_64_apple_darwin" = some mi ∧
    envGet (targetEnv (hostEnv inc mi) triple sys inc)
      "OBJC_INCLUDE_PATH_x86_64_apple_darwin" = some inc ∧
    envGet (targetEnv (hostEnv inc mi) triple sys inc) "RUST_BACKTRACE" = some "1" := by
  rcases htr with h | h <;> subst h <;> exact ⟨rfl, rfl, rfl, rfl, rfl⟩

/-- C5: every per-architecture overlay in the compile trace of an
xcode-script run contains every host-overlay entry — the host system-root
flag (`MAC_FLAGS`), the host C and C++ flags keyed by the darwin triple,
the host include-path variable, and the `RUST_BACKTRACE` entry — for every
requested architecture, regardless of the platform flag. -/
theorem c5_host_overlay_preserved (home : Option Path) (fs : FS) (m : Bool)
    (sdk : Path) (arches : List String)
    (compile : Target → EnvMap → Option String) (t : Target) (e : EnvMap)
    (hmem : (t, e) ∈ (xcodeScript home fs m sdk arches compile).1) :
    envGet e "MAC_FLAGS" = some ("-isysroot " ++ macosSdkPath sdk) ∧
    envGet e "CFLAGS_x86_64_apple_darwin" =
      some ("-isysroot " ++ macosSdkPath sdk) ∧
    envGet e "CXXFLAGS_x86_64_apple_darwin" =
      some ("-isysroot " ++ macosSdkPath sdk) ∧
    envGet e "OBJC_INCLUDE_PATH_x86_64_apple_darwin" =
      some (pathJoin sdk "usr/include") ∧
    envGet e "RUST_BACKTRACE" = some "1" := by
  cases home with
  | none => simp [xcodeScript] at hmem
  | some hp =>
    cases h1 : fs.isDir sdk with
    | false => simp [xcodeScript, h1] at hmem
    | true =>
      cases h2 : fs.isDir (pathJoin sdk "usr/include") with
      | false => simp [xcodeScript, h1, h2] at hmem
      | true =>
        cases h3 : fs.isDir (macosSdkPath sdk) with
        | false => simp [xcodeScript, h1, h2, h3] at hmem
        | true =>
          have hx : (xcodeScript (some hp) fs m sdk arches compile).1 =
              (runArchesWith Target.for_arch m
                (hostEnv (pathJoin sdk "usr/include")
                  ("-isysroot " ++ macosSdkPath sdk))
                ("-isysroot " ++ sdk) (pathJoin sdk "usr/include")
                compile arches).1 := by
            simp [xcodeScript, h1, h2, h3]
          rw [hx] at hmem
          obtain ⟨arch, triple, htr, he⟩ :=
            runArchesWith_trace_env _ _ _ _ _ _ _ _ _ hmem
          subst he
          exact targetEnv_host_keys _ _ _ _ (triple_values arch triple htr)

/-- C5 witness: the overlay the run on `fsFull` synthesizes for "arm64"
carries all five host entries. -/
theorem c5_witness :
    envGet arm64Overlay "MAC_FLAGS" = some ("-isysroot " ++ macosSdkPath "/sdk") ∧
    envGet arm64Overlay "CFLAGS_x86_64_apple_darwin" =
      some ("-isysroot " ++ macosSdkPath "/sdk") ∧
    envGet arm64Overlay "CXXFLAGS_x86_64_apple_darwin" =
      some ("-isysroot " ++ macosSdkPath "/sdk") ∧
    envGet arm64Overlay "OBJC_INCLUDE_PATH_x86_64_apple_darwin" =
      some (pathJoin "/sdk" "usr/include") ∧
    envGet arm64Overlay "RUST_BACKTRACE" = some "1" :=
  c5_host_overlay_preserved (some "/Users/u") fsFull false "/sdk" ["arm64"]
    compileOk Target.ios_arm64 arm64Overlay (by decide)

/-- In the archive loop's trace, an archive invocation on a target implies
that target's build succeeded, and the build invocation on that target
appears before the archive invocation. -/
theorem archiveLoop_archived (bres ares : Target → Profile → Option String)
    (p : Profile) (ts : List Target) (t : Target)
    (hmem : Event.archived t p ∈ (archiveLoop bres ares p ts).1) :
    bres t p = none ∧
    List.Sublist [Event.built t p, Event.archived t p]
      (archiveLoop bres ares p ts).1 := by
  induction ts with
  | nil => simp [archiveLoop] at hmem
  | cons t0 rest ih =>
    cases hb : bres t0 p with
    | some e => simp [archiveLoop, hb] at hmem
    | none =>
      cases ha : ares t0 p with
      | some e =>
        have htr : (archiveLoop bres ares p (t0 :: rest)).1 =
            [Event.built t0 p, Event.archived t0 p] := by
          simp [archiveLoop, hb, ha]
        rw [htr] at hmem ⊢
        simp at hmem
        subst hmem
        exact ⟨hb, .cons₂ _ (.cons₂ _ (List.nil_sublist _))⟩
      | none =>
        have htr : (archiveLoop bres ares p (t0 :: rest)).1 =
            Event.built t0 p :: Event.archived t0 p ::
              (archiveLoop bres ares p rest).1 := by
          simp [archiveLoop, hb, ha]
        rw [htr] at hmem ⊢
        simp at hmem
        rcases hmem with h | h
        · subst h
          exact ⟨hb, .cons₂ _ (.cons₂ _ (List.nil_sublist _))⟩
        · have hrec := ih h
          exact ⟨hrec.1, (hrec.2.cons _).cons _⟩

/-- If a target's build fails and its build was invoked, the loop stopped
there: the loop's result is that build failure and no archive invocation
on that target appears in the trace. -/
theorem archiveLoop_build_fail (bres ares : Target → Profile → Option String)
    (p : Profile) (ts : List Target) (t : Target) (e : String)
    (hb : bres t p = some e)
    (hmem : Event.built t p ∈ (archiveLoop bres ares p ts).1) :
    (archiveLoop bres ares p ts).2 = Except.error (Error.BuildFailed e) ∧
    Event.archived t p ∉ (archiveLoop bres ares p ts).1 := by
  have hne : ∀ t0, bres t0 p = none → t ≠ t0 := by
    intro t0 h0 hteq
    rw [hteq, h0] at hb
    cases hb
  induction ts with
  | nil => simp [archiveLoop] at hmem
  | cons t0 rest ih =>
    cases hb0 : bres t0 p with
    | some e0 =>
      have htr : archiveLoop bres ares p (t0 :: rest) =
          ([Event.built t0 p], Except.error (Error.BuildFailed e0)) := by
        simp [archiveLoop, hb0]
      rw [htr] at hmem ⊢
      simp at hmem
      subst hmem
      rw [hb0] at hb
      injection hb with he
      subst he
      exact ⟨rfl, by simp⟩
    | none =>
      cases ha0 : ares t0 p with
      | some e0 =>
        have htr : (archiveLoop bres ares p (t0 :: rest)).1 =
            [Event.built t0 p, Event.archived t0 p] := by
          simp [archiveLoop, hb0, ha0]
        rw [htr] at hmem
        simp at hmem
        exact absurd hmem (hne t0 hb0)
      | none =>
        have htr1 : (archiveLoop bres ares p (t0 :: rest)).1 =
            Event.built t0 p :: Event.archived t0 p ::
              (archiveLoop bres ares p rest).1 := by
          simp [archiveLoop, hb0, ha0]
        have htr2 : (archiveLoop bres ares p (t0 :: rest)).2 =
            (archiveLoop bres ares p rest).2 := by
          simp [archiveLoop, hb0, ha0]
        rw [htr1] at hmem
        simp at hmem
        rcases hmem with h | h
        · exact absurd h (hne t0 hb0)
        · have hrec := ih h
          rw [htr1, htr2]
          refine ⟨hrec.1, ?_⟩
          simp [hrec.2]
          exact hne t0 hb0

/-- The archive command either performs no stage work at all or runs the
build-then-archive loop on the selected targets. -/
theorem archiveCommand_cases (w : World) (keys : List String) (p : Profile) :
    (archiveCommand w keys p).1 = [] ∨
    ∃ ts, archiveCommand w keys p = archiveLoop w.buildRes w.archiveRes p ts := by
  unfold archiveCommand
  split
  · left; rfl
  · split
    · left; rfl
    · split
      · left; rfl
      · right; exact ⟨_, rfl⟩

/-- C6: in the archive command, every archive invocation on a target is
preceded in the trace by the build invocation on that same target and
profile, and happens only when that build succeeded; if a target's build
fails after being invoked, that build failure is the command's error and
archive is never invoked on that target. -/
theorem c6_build_before_archive (w : World) (keys : List String) (p : Profile) :
    (∀ t, Event.archived t p ∈ (archiveCommand w keys p).1 →
      w.buildRes t p = none ∧
      List.Sublist [Event.built t p, Event.archived t p]
        (archiveCommand w keys p).1) ∧
    (∀ t e, w.buildRes t p = some e →
      Event.built t p ∈ (archiveCommand w keys p).1 →
      (archiveCommand w keys p).2 = Except.error (Error.BuildFailed e) ∧
      Event.archived t p ∉ (archiveCommand w keys p).1) := by
  rcases archiveCommand_cases w keys p with h | ⟨ts, h⟩
  · constructor
    · intro t hmem
      rw [h] at hmem
      simp at hmem
    · intro t e hb hmem
      rw [h] at hmem
      simp at hmem
  · rw [h]
    constructor
    · intro t hmem
      exact archiveLoop_archived _ _ _ _ _ hmem
    · intro t e hb hmem
      exact archiveLoop_build_fail _ _ _ _ _ _ hb hmem

/-- C6 witness: on a world whose build fails, archive on the fallback
targets surfaces the build failure and never invokes the archive stage. -/
theorem c6_witness :
    wBuildFail.buildRes Target.ios_arm64 Profile.Debug =
      some "cargo build exited with status 101" ∧
    Event.built Target.ios_arm64 Profile.Debug ∈
      (archiveCommand wBuildFail ["aarch64"] Profile.Debug).1 ∧
    (archiveCommand wBuildFail ["aarch64"] Profile.Debug).2 =
      Except.error (Error.BuildFailed "cargo build exited with status 101") ∧
    Event.archived Target.ios_arm64 Profile.Debug ∉
      (archiveCommand wBuildFail ["aarch64"] Profile.Debug).1 :=
  ⟨rfl, by decide,
    ((c6_build_before_archive wBuildFail ["aarch64"] Profile.Debug).2
      Target.ios_arm64 "cargo build exited with status 101" rfl (by decide)).1,
    ((c6_build_before_archive wBuildFail ["aarch64"] Profile.Debug).2
      Target.ios_arm64 "cargo build exited with status 101" rfl (by decide)).2⟩

/-- C8: the platform-name flag decides host-platform mode by string
equality with "macOS"; in host-platform mode every compile call receives
the fixed macOS target, and otherwise the compile call for an architecture
receives the registry lookup's target for that architecture name — the
loop failing with `ArchInvalid` naming the architecture when the lookup
yields nothing. -/
theorem c8_platform_target_choice :
    (∀ p, macos_from_platform p = true ↔ p = "macOS") ∧
    (∀ lookup host sys inc compile arches t e,
      (t, e) ∈ (runArchesWith lookup true host sys inc compile arches).1 →
      t = Target.macos) ∧
    (∀ lookup host sys inc compile a rest tgt triple,
      triple_for_arch a = some triple → lookup a = some tgt →
      ((runArchesWith lookup false host sys inc compile (a :: rest)).1).head? =
        some (tgt, targetEnv host triple sys inc)) ∧
    (∀ lookup host sys inc compile a rest triple,
      triple_for_arch a = some triple → lookup a = none →
      runArchesWith lookup false host sys inc compile (a :: rest) =
        ([], Except.error (Error.ArchInvalid a))) := by
  refine ⟨?_, ?_, ?_, ?_⟩
  · intro p
    simp [macos_from_platform]
  · intro lookup host sys inc compile arches
    induction arches with
    | nil =>
      intro t e hmem
      simp [runArchesWith] at hmem
    | cons a rest ih =>
      intro t e hmem
      cases htr : triple_for_arch a with
      | none => simp [runArchesWith, htr] at hmem
      | some tr =>
        cases hc : compile Target.macos (targetEnv host tr sys inc) with
        | some err =>
          simp [runArchesWith, htr, hc] at hmem
          exact hmem.1
        | none =>
          simp [runArchesWith, htr, hc] at hmem
          rcases hmem with ⟨h1, _⟩ | h
          · exact h1
          · exact ih t e h
  · intro lookup host sys inc compile a rest tgt triple h1 h2
    cases hc : compile tgt (targetEnv host triple sys inc) with
    | some err => simp [runArchesWith, h1, h2, hc]
    | none => simp [runArchesWith, h1, h2, hc]
  · intro lookup host sys inc compile a rest triple h1 h2
    simp [runArchesWith, h1, h2]

/-- C8 witness: "macOS" sets host-platform mode; in host mode the compile
target is the macOS target; otherwise "arm64" gets the registry's arm64
target, and an empty lookup makes the loop fail with `ArchInvalid`. -/
theorem c8_witness :
    macos_from_platform "macOS" = true ∧
    Target.macos = Target.macos ∧
    ((runArchesWith Target.for_arch false [] "s" "i" compileOk ["arm64"]).1).head? =
      some (Target.ios_arm64, targetEnv [] "aarch64_apple_ios" "s" "i") ∧
    runArchesWith (fun _ => none) false [] "s" "i" compileOk ["arm64"] =
      ([], Except.error (Error.ArchInvalid "arm64")) :=
  ⟨(c8_platform_target_choice.1 "macOS").mpr rfl,
    c8_platform_target_choice.2.1 Target.for_arch [] "s" "i" compileOk ["arm64"]
      Target.macos (targetEnv [] "aarch64_apple_ios" "s" "i") (by decide),
    c8_platform_target_choice.2.2.1 Target.for_arch [] "s" "i" compileOk "arm64" []
      Target.ios_arm64 "aarch64_apple_ios" rfl rfl,
    c8_platform_target_choice.2.2.2 (fun _ => none) [] "s" "i" compileOk "arm64" []
      "aarch64_apple_ios" rfl rfl⟩

/-- Resolution of a key list whose keys are all valid yields exactly the
looked-up targets in order. -/
theorem resolveKeys_all_valid (keys : List String)
    (h : ∀ k ∈ keys, (registryLookup k).isSome) :
    resolveKeys keys = Except.ok (keys.filterMap registryLookup) := by
  induction keys with
  | nil => rfl
  | cons k rest ih =>
    have hk := h k (by simp)
    obtain ⟨t, ht⟩ := Option.isSome_iff_exists.mp hk
    simp [resolveKeys, ht, ih (fun x hx => h x (by simp [hx])),
      List.filterMap_cons]

/-- Resolution fails with the invalid-target error naming the first
invalid key. -/
theorem resolveKeys_first_invalid (keys : List String) (k : String)
    (h : keys.find? (fun k0 => (registryLookup k0).isNone) = some k) :
    resolveKeys keys = Except.error (Error.TargetInvalid k) := by
  induction keys with
  | nil => simp at h
  | cons k0 rest ih =>
    cases hk0 : registryLookup k0 with
    | none =>
      simp [List.find?, hk0] at h
      subst h
      simp [resolveKeys, hk0]
    | some t =>
      simp [List.find?, hk0] at h
      simp [resolveKeys, hk0, ih h]

/-- C9 counterexample: the single-key list ["aarch64"] contains only valid
keys (the default key is valid), yet with a connected device's target
available, selection returns that device's target rather than the list's
own resolved target — refuting the claim for lists consisting solely of
the default key. -/
theorem c9_counterexample :
    registryLookup "aarch64" = some Target.ios_arm64 ∧
    select ["aarch64"] (some Target.ios_x86_64) = Except.ok [Target.ios_x86_64] ∧
    select ["aarch64"] (some Target.ios_x86_64) ≠ Except.ok [Target.ios_arm64] := by
  refine ⟨rfl, rfl, ?_⟩
  intro hcon
  have h2 : (Except.ok [Target.ios_x86_64] : Except Error (List Target)) =
      Except.ok [Target.ios_arm64] := hcon
  injection h2 with h3
  simp at h3

/-- C9 (amended): an explicit key list that is non-empty, contains only
valid keys, and does not consist solely of the default key resolves to
exactly those targets in the given order with duplicates removed
preserving first occurrence; a list consisting solely of the default key
(like an empty one) instead takes the device/all-targets fallback. A key
list containing at least one invalid key fails with the invalid-target
error naming the first invalid key, with no partial resolution. -/
theorem c9_amended :
    (∀ keys device, keys ≠ [] → ¬(∀ k ∈ keys, k = defaultKey) →
      (∀ k ∈ keys, (registryLookup k).isSome) →
      select keys device =
        Except.ok (dedupFirst (keys.filterMap registryLookup))) ∧
    (∀ keys device k,
      keys.find? (fun k0 => (registryLookup k0).isNone) = some k →
      select keys device = Except.error (Error.TargetInvalid k)) := by
  constructor
  · intro keys device hne hnd hval
    have h1 : keys.isEmpty = false := by
      cases keys with
      | nil => exact absurd rfl hne
      | cons a l => rfl
    have h2 : keys.all (fun k => k == defaultKey) = false := by
      rw [Bool.eq_false_iff]
      intro hall
      refine hnd (fun k hk => ?_)
      have hb := List.all_eq_true.mp hall k hk
      simpa using hb
    simp [select, h1, h2, resolveKeys_all_valid keys hval]
  · intro keys device k hfind
    have hkmem : k ∈ keys := List.mem_of_find?_eq_some hfind
    have hkinv0 := List.find?_some hfind
    have hkinv : ((registryLookup k).isNone : Bool) = true := by simpa using hkinv0
    have h1 : keys.isEmpty = false := by
      cases keys with
      | nil => simp at hkmem
      | cons a l => rfl
    have h2 : keys.all (fun x => x == defaultKey) = false := by
      rw [Bool.eq_false_iff]
      intro hall
      have hb := List.all_eq_true.mp hall k hkmem
      have hkd : k = defaultKey := by simpa using hb
      rw [hkd] at hkinv
      simp [registryLookup, defaultKey] at hkinv
    simp [select, h1, h2, resolveKeys_first_invalid keys k hfind]

/-- C9 witness: a valid non-default list resolves in order with
first-occurrence deduplication; a list with an invalid key fails with
`TargetInvalid` naming it. -/
theorem c9_witness :
    select ["x86_64", "aarch64", "x86_64"] none =
      Except.ok [Target.ios_x86_64, Target.ios_arm64] ∧
    select ["x86_64", "armv7"] none =
      Except.error (Error.TargetInvalid "armv7") :=
  ⟨c9_amended.1 ["x86_64", "aarch64", "x86_64"] none (by decide) (by decide)
      (by decide),
    c9_amended.2 ["x86_64", "armv7"] none "armv7" rfl⟩

/-- C10: the check command's behavior is entirely independent of whether
the Xcode project directory exists, while build, archive, run, and open
each fail with `ProjectDirAbsent` and perform no stage work when it is
missing (config loading having succeeded). -/
theorem c10_check_no_init (w : World) (keys : List String) (p : Profile) :
    (∀ b, checkCommand { w with projectDirExists := b } keys =
      checkCommand w keys) ∧
    (w.configErr = none → w.projectDirExists = false →
      buildCommand w keys p =
        ([], Except.error (Error.ProjectDirAbsent w.projectDir)) ∧
      archiveCommand w keys p =
        ([], Except.error (Error.ProjectDirAbsent w.projectDir)) ∧
      runCommand w p =
        ([], Except.error (Error.ProjectDirAbsent w.projectDir)) ∧
      openCommand w =
        ([], Except.error (Error.ProjectDirAbsent w.projectDir))) := by
  constructor
  · intro b
    rfl
  · intro hc hp
    refine ⟨?_, ?_, ?_, ?_⟩ <;>
      simp [buildCommand, archiveCommand, runCommand, openCommand,
        ensure_init, hc, hp]

/-- C10 witness: on a world with no generated project directory, build,
archive, run, and open all fail with `ProjectDirAbsent` and empty
traces. -/
theorem c10_witness :
    buildCommand wNoProj ["aarch64"] Profile.Debug =
      ([], Except.error (Error.ProjectDirAbsent "/app/gen/apple")) ∧
    archiveCommand wNoProj ["aarch64"] Profile.Debug =
      ([], Except.error (Error.ProjectDirAbsent "/app/gen/apple")) ∧
    runCommand wNoProj Profile.Debug =
      ([], Except.error (Error.ProjectDirAbsent "/app/gen/apple")) ∧
    openCommand wNoProj =
      ([], Except.error (Error.ProjectDirAbsent "/app/gen/apple")) :=
  (c10_check_no_init wNoProj ["aarch64"] Profile.Debug).2 rfl rfl

end CargoApple
